import Mathlib

/-!
Verification of the core report-ledger logic of `raporty_bot.py`.

The Python source keeps timed work entries in an xlsx workbook: one sheet per
month, a fixed header row, one data row per entry.  We embed the relevant
functions shallowly:

* a workbook is a list of named sheets, a sheet a list of rows, a row a list
  of string cells (an absent / `None` cell is the empty string — the only
  place the source distinguishes them, `str(row[0].value)`, is noted at its
  translation);
* Python exceptions are modelled as `Option`/`Except` failure values;
* Python `int(s)` is modelled as an optional sign followed by digits (the
  exotic accepted forms — surrounding whitespace, underscore separators —
  play no role in any claim);
* Python string comparison is lexicographic on code points; we model it with
  an explicit recursive function over the code-point lists.
-/

namespace Raporty

/-! ## Python integer parsing, `time_to_minutes`, `intervals_overlap` -/

/-- Split a character list at every occurrence of `c` (Python
`s.split(c)` for a one-character separator): always returns at least one
group, empty groups included. -/
def splitCh (c : Char) : List Char → List (List Char)
  | [] => [[]]
  | x :: xs =>
      match splitCh c xs with
      | [] => [[]]
      | g :: gs => if x == c then [] :: g :: gs else (x :: g) :: gs

/-- Python `s.split(c)` for a one-character separator `c`. -/
def pySplit (c : Char) (s : String) : List String :=
  (splitCh c s.data).map String.mk

/-- Python `s.startswith(p)`. -/
def pyStartsWith (s p : String) : Bool :=
  p.data.isPrefixOf s.data

/-- Digits-only parse of a list of characters, `none` if empty or non-digit. -/
def digitsToNat (l : List Char) : Option Nat :=
  if l.isEmpty then none
  else if l.all Char.isDigit then
    some (l.foldl (fun a c => 10 * a + (c.toNat - 48)) 0)
  else none

/-- Model of Python `int(s)` on text: optional `+`/`-` sign followed by one
or more digits, `none` (a raised `ValueError`) otherwise. -/
def parseIntPy (s : String) : Option Int :=
  match s.data with
  | '+' :: rest => (digitsToNat rest).map Int.ofNat
  | '-' :: rest => (digitsToNat rest).map (fun n => -(n : Int))
  | l => (digitsToNat l).map Int.ofNat

/-- Model of `time_to_minutes` (src line 332): `h, m = map(int, t.split(":"))`
then `h * 60 + m`; `none` models the `ValueError` raised on any other shape. -/
def time_to_minutes (t : String) : Option Int :=
  match (pySplit ':' t).map parseIntPy with
  | [some h, some m] => some (h * 60 + m)
  | _ => none

/-- The minute-space comparison at the heart of `intervals_overlap`
(src line 344): `max(aStart, bStart) < min(aEnd, bEnd)`. -/
def overlapMinutes (aS aE bS bE : Int) : Bool :=
  decide (max aS bS < min aE bE)

/-- Model of `intervals_overlap` (src line 344): parse all four times and
compare in minute space; `none` models the exception raised when any of the
four strings does not parse. -/
def intervals_overlap (aS aE bS bE : String) : Option Bool := do
  let x ← time_to_minutes aS
  let y ← time_to_minutes aE
  let z ← time_to_minutes bS
  let w ← time_to_minutes bE
  pure (overlapMinutes x y z w)

/-! ## Python string comparison (the `start >= end` checks) -/

/-- Lexicographic strict order on code-point lists, as Python compares
strings. -/
def pyLtN : List Nat → List Nat → Bool
  | [], [] => false
  | [], _ :: _ => true
  | _ :: _, [] => false
  | x :: xs, y :: ys => x < y || (x == y && pyLtN xs ys)

/-- Model of Python `s < t` on strings: lexicographic on code points. -/
def pyStrLt (s t : String) : Bool :=
  pyLtN (s.data.map Char.toNat) (t.data.map Char.toNat)

/-- Model of Python `s >= t` on strings.  Python string comparison is a total
order, so `s >= t` is exactly `not (s < t)`. -/
def pyStrGe (s t : String) : Bool :=
  !(pyStrLt s t)

/-- The character for a decimal digit `d < 10`. -/
def digitChar (d : Nat) : Char :=
  Char.ofNat (48 + d)

/-- The string produced by `f"{h:02d}:{m:02d}"` for `h, m < 100` — the only
shape the time picker (src line 1073) ever stores in `start`/`end`. -/
def hhmm (h m : Nat) : String :=
  String.mk [digitChar (h / 10), digitChar (h % 10), ':',
             digitChar (m / 10), digitChar (m % 10)]

/-! ## The tabular store: rows, sheets, workbook -/

/-- A spreadsheet row: a list of string cells (an empty / `None` cell is
`""`). -/
abbrev Row := List String

/-- The fixed header row (src `HEADERS`, line 86). -/
def HEADERS : Row :=
  ["ID", "Data", "Imię", "Miejsce", "Start", "Koniec", "Zadania", "Uwagi"]

/-- One sheet of the workbook: its title and all of its rows (header
included, when present). -/
structure Sheet where
  name : String
  rows : List Row
deriving DecidableEq, Repr, Inhabited

/-- The workbook: its sheets in order. -/
structure Workbook where
  sheets : List Sheet
deriving DecidableEq, Repr, Inhabited

/-- A freshly constructed `openpyxl` `Workbook()`: a single empty sheet
titled `"Sheet"` (src `open_wb`, line 130, when the file does not exist). -/
def freshWorkbook : Workbook :=
  ⟨[⟨"Sheet", []⟩]⟩

/-- `wb[mk]` when `mk in wb.sheetnames`, else `none` (src
`get_month_sheet_if_exists`, line 152). -/
def findSheet (wb : Workbook) (mk : String) : Option Sheet :=
  wb.sheets.find? (fun s => s.name == mk)

/-- The data rows of the month sheet named `mk` (everything below the header,
i.e. `iter_rows(min_row=2)`); `[]` when the sheet does not exist. -/
def dayDataRows (wb : Workbook) (mk : String) : List Row :=
  match findSheet wb mk with
  | some ws => ws.rows.drop 1
  | none => []

/-- The `max_row == 1 and max_column == 1` test of src line 144: an
`openpyxl` sheet reports that shape exactly when it has no content or a
single one-cell row. -/
def sheetTrivial : List Row → Bool
  | [] => true
  | [[_]] => true
  | [[]] => true
  | _ => false

/-- Model of `ensure_month_sheet` (src line 139): return the sheet for
`mk` together with the remaining sheets, such that the resulting workbook is
the sheet followed by the rest.  If the sheet exists it is moved to index 0
(src `wb.move_sheet`); otherwise a fresh sheet holding only the header row is
created at index 0 and a leftover trivial default `"Sheet"` is pruned. -/
def ensureMonthSheet (wb : Workbook) (mk : String) : Sheet × List Sheet :=
  match findSheet wb mk with
  | some ws => (ws, wb.sheets.eraseP (fun s => s.name == mk))
  | none =>
      (⟨mk, [HEADERS]⟩,
       wb.sheets.eraseP (fun s => s.name == "Sheet" && sheetTrivial s.rows))

/-! ## Dates and month keys -/

/-- Leap year as Python's calendar does it. -/
def isLeap (y : Nat) : Bool :=
  y % 4 == 0 && (y % 100 != 0 || y % 400 == 0)

/-- Days in a month, for `strptime`'s day-range validation. -/
def daysInMonth (y m : Nat) : Nat :=
  if m == 2 then (if isLeap y then 29 else 28)
  else if m == 4 || m == 6 || m == 9 || m == 11 then 30
  else 31

/-- `toString` left-padded with zeros to width `w` (Python `f"{n:0wd}"`). -/
def padNum (w : Nat) (n : Nat) : String :=
  let s := toString n
  String.mk (List.replicate (w - s.length) '0') ++ s

/-- Model of `month_key_from_date` (src line 135):
`datetime.strptime(date_str, "%d.%m.%Y")` then `f"{d.year:04d}-{d.month:02d}"`.
`none` models the `ValueError` raised on text that is not a valid
`day.month.year` date. -/
def month_key_from_date (ds : String) : Option String :=
  match (splitCh '.' ds.data).map digitsToNat with
  | [some d, some m, some y] =>
      if 1 ≤ y && 1 ≤ m && m ≤ 12 && 1 ≤ d && d ≤ daysInMonth y m then
        some (padNum 4 y ++ "-" ++ padNum 2 m)
      else none
  | _ => none

/-- The id scope marker `f"{user_id}_{date_str}_"` (src line 174). -/
def scopePre (uid : Nat) (ds : String) : String :=
  toString uid ++ "_" ++ ds ++ "_"

/-- The token after the last `_` of an id, parsed as a Python int
(src `int(rid.split("_")[-1])`, line 180). -/
def lastSeq (rid : String) : Option Int :=
  parseIntPy ((pySplit '_' rid).getLastD "")

/-! ## The Report Ledger: `save_report`, `read_entries_for_day`,
`update_report_field` -/

/-- A not-yet-persisted entry, as the panel accumulates it: the five text
fields with `""` for a missing dict key (`e.get(k, "")`). -/
structure PEntry where
  place : String
  start : String
  stop : String
  tasks : String
  notes : String
deriving DecidableEq, Repr, Inhabited

/-- Typed failures of the ledger operations.  `badDate` models the
`ValueError` of `strptime` on a malformed date; `entryNotFound` the
`RuntimeError` of `update_report_field` (src line 269). -/
inductive LedgerErr where
  | badDate
  | entryNotFound
deriving DecidableEq, Repr

/-- The sequence values parsed out of the ids already in scope
(src lines 175–182): for each data row whose first cell starts with the
scope marker, `int` of the token after the last `_`; unparsable ids are
skipped (the `except: pass`). -/
def existingIdxs (rows : List Row) (pre : String) : List Int :=
  rows.filterMap (fun r =>
    let rid := r.headD ""
    if pyStartsWith rid pre then lastSeq rid else none)

/-- `max(existing_idxs) + 1 if existing_idxs else 1` (src line 183). -/
def nextIdx (idxs : List Int) : Int :=
  match idxs with
  | [] => 1
  | x :: xs => xs.foldl max x + 1

/-- The rows appended for a batch (src lines 184–195): for the `off`-th
entry the id `f"{user_id}_{date_str}_{next_idx + off}"` followed by date,
owner name and the five fields. -/
def appendedRows (pre ds name : String) (seq : Int) : List PEntry → List Row
  | [] => []
  | e :: es =>
      [pre ++ toString seq, ds, name, e.place, e.start, e.stop, e.tasks, e.notes]
        :: appendedRows pre ds name (seq + 1) es

/-- Model of `save_report` (src line 170): ensure the month sheet, compute
the next sequence once for the whole batch, append one row per entry.  The
result is the workbook as persisted by `_atomic_save_wb`. -/
def save_report (wb : Workbook) (entries : List PEntry) (uid : Nat)
    (ds : String) (name : String) : Except LedgerErr Workbook :=
  match month_key_from_date ds with
  | none => .error .badDate
  | some mk =>
      let ws := (ensureMonthSheet wb mk).1
      let rest := (ensureMonthSheet wb mk).2
      let pre := scopePre uid ds
      let seq := nextIdx (existingIdxs (ws.rows.drop 1) pre)
      .ok ⟨{ ws with rows := ws.rows ++ appendedRows pre ds name seq entries } :: rest⟩

/-- An entry as `read_entries_for_day` returns it (src lines 214–224).  The
absolute sheet-row coordinate of the dict (`"row"`) is dropped: no verified
operation consumes it. -/
structure REntry where
  rid : String
  date : String
  name : String
  place : String
  start : String
  stop : String
  tasks : String
  notes : String
deriving DecidableEq, Repr, Inhabited

/-- A data row turned into an `REntry` (columns per src `COLS`, line 96; the
`or ""` of the source is the identity here since empty cells are `""`). -/
def rowToREntry (r : Row) : REntry :=
  { rid := r.headD "", date := r.getD 1 "", name := r.getD 2 "",
    place := r.getD 3 "", start := r.getD 4 "", stop := r.getD 5 "",
    tasks := r.getD 6 "", notes := r.getD 7 "" }

/-- Stable insertion into a list sorted ascending by `key`: an element lands
after all existing elements with a key `≤` its own, which is how Python's
stable sort orders ties. -/
def insSorted (key : α → Int) (x : α) : List α → List α
  | [] => [x]
  | y :: ys => if key y ≤ key x then y :: insSorted key x ys else x :: y :: ys

/-- Stable ascending sort by an integer key, modelling
`out.sort(key=...)`. -/
def sortByKey (key : α → Int) (l : List α) : List α :=
  l.foldl (fun acc x => insSorted key x acc) []

/-- Model of `read_entries_for_day` (src line 201): entries of the month
sheet whose id starts with the scope marker, sorted ascending by their
sequence token.  `none` models the `ValueError` the sort key raises when
some matching id has an unparsable last token. -/
def read_entries_for_day (wb : Workbook) (uid : Nat) (ds : String) :
    Option (List REntry) :=
  match month_key_from_date ds with
  | none => none
  | some mk =>
      match findSheet wb mk with
      | none => some []
      | some ws =>
          let pre := scopePre uid ds
          let es := ((ws.rows.drop 1).filter
              (fun r => r.headD "" != "" && pyStartsWith (r.headD "") pre)).map rowToREntry
          if es.all (fun e => (lastSeq e.rid).isSome) then
            some (sortByKey (fun e => (lastSeq e.rid).getD 0) es)
          else none

/-- The editable fields of `update_report_field` (src `col_name_map`,
line 255). -/
inductive Field where
  | place
  | start
  | stop
  | tasks
  | notes
deriving DecidableEq, Repr

/-- The 0-based cell index a field is written to (src `COLS[col_name_map[field]]`,
1-based 4–8). -/
def fieldCol : Field → Nat
  | .place => 3
  | .start => 4
  | .stop => 5
  | .tasks => 6
  | .notes => 7

/-- Write cell `c` of a row, padding with empty cells first when the row is
shorter — `ws.cell(row, column, value)` materialises missing cells as
empty. -/
def setCell (r : Row) (c : Nat) (v : String) : Row :=
  (r ++ List.replicate (c + 1 - r.length) "").set c v

/-- Model of `update_report_field` (src line 251): locate the first data row
of the month sheet whose id cell equals `rid` and overwrite the one target
cell; `entryNotFound` if there is none.  (The source compares
`str(row[0].value) == rid`; with cells as strings and `""` for `None` this
is cell-equals-`rid` — the artefact that a `None` cell prints as `"None"`
is not representable and no ledger-written id is `"None"`.) -/
def update_report_field (wb : Workbook) (_uid : Nat) (ds : String)
    (rid : String) (field : Field) (newValue : String) :
    Except LedgerErr Workbook :=
  match month_key_from_date ds with
  | none => .error .badDate
  | some mk =>
      let ws := (ensureMonthSheet wb mk).1
      let rest := (ensureMonthSheet wb mk).2
      match (ws.rows.drop 1).findIdx? (fun r => r.headD "" == rid) with
      | none => .error .entryNotFound
      | some i =>
          .ok ⟨{ ws with
                 rows := ws.rows.set (i + 1)
                   (setCell ((ws.rows.drop 1).getD i []) (fieldCol field) newValue) }
               :: rest⟩

/-- `update_report_field` as a transition on the persisted store: the
source mutates an in-memory copy and only persists at the very end, so a
raised error leaves the durable file exactly as it was. -/
def update_report_persisted (wb : Workbook) (uid : Nat) (ds : String)
    (rid : String) (field : Field) (newValue : String) :
    Workbook × Option LedgerErr :=
  match update_report_field wb uid ds rid field newValue with
  | .ok wb2 => (wb2, none)
  | .error e => (wb, some e)

/-! ## The Overlap Validator: `has_overlap` -/

/-- An entry carries an interval at all: both time fields non-empty
(the `e.get("start") and e.get("end")` / `e["start"] and e["end"]` guards of
src lines 350 and 355). -/
def hasTimes (s e : String) : Bool :=
  s != "" && e != ""

/-- One step of the conflict loop: test the candidate against one interval,
append the pair on overlap; `none` models a parse exception inside
`intervals_overlap`. -/
def overlapStep (s e : String) (acc : List (String × String))
    (st en : String) : Option (List (String × String)) := do
  let b ← intervals_overlap s e st en
  pure (if b then acc ++ [(st, en)] else acc)

/-- The conflicts contributed by the in-memory pending entries
(src lines 349–351), appended after `acc` in order; `none` models a parse
exception. -/
def conflictsPending (s e : String) : List PEntry → List (String × String) →
    Option (List (String × String))
  | [], acc => some acc
  | en :: mem, acc =>
      if hasTimes en.start en.stop then
        (overlapStep s e acc en.start en.stop).bind (conflictsPending s e mem)
      else conflictsPending s e mem acc

/-- The `exclude_rid and e["rid"] == exclude_rid` skip of src line 353:
Python truthiness makes `None` and `""` both mean "exclude nothing". -/
def excludeSkip (ex : Option String) (rid : String) : Bool :=
  match ex with
  | none => false
  | some s => s != "" && rid == s

/-- The conflicts contributed by the persisted entries of the day
(src lines 352–356), appended after `acc`; `none` models a parse
exception. -/
def conflictsStored (s e : String) (ex : Option String) :
    List REntry → List (String × String) → Option (List (String × String))
  | [], acc => some acc
  | en :: l, acc =>
      if excludeSkip ex en.rid then conflictsStored s e ex l acc
      else if hasTimes en.start en.stop then
        (overlapStep s e acc en.start en.stop).bind (conflictsStored s e ex l)
      else conflictsStored s e ex l acc

/-- Model of `has_overlap` (src line 347): conflicts from the pending
entries, then from `read_entries_for_day`, the flag true iff the combined
list is non-empty.  `none` models any exception raised along the way. -/
def has_overlap (wb : Workbook) (uid : Nat) (ds : String) (s e : String)
    (ex : Option String) (mem : List PEntry) :
    Option (Bool × List (String × String)) := do
  let c1 ← conflictsPending s e mem []
  let l ← read_entries_for_day wb uid ds
  let c2 ← conflictsStored s e ex l c1
  pure (decide (0 < c2.length), c2)

/-! ## The Export Projector: `export_month` -/

/-- Python truthiness of the optional `user_id` argument: `None` and `0` are
both falsy (src `if user_id and not ...`, line 839). -/
def pyTruthyOptNat : Option Nat → Bool
  | none => false
  | some v => v != 0

/-- A data row survives the export loop (src lines 836–841): its id cell is
non-empty, and when a truthy `user_id` was supplied the id starts with
`f"{user_id}_"`. -/
def exportKeeps (u : Option Nat) (r : Row) : Bool :=
  r.headD "" != "" &&
    (!(pyTruthyOptNat u) || pyStartsWith (r.headD "") (toString (u.getD 0) ++ "_"))

/-- Model of `export_month` (src line 824): `none` when the month sheet does
not exist, otherwise a fresh single sheet titled `mk` holding the header row
plus the surviving data rows in order.  (The artifact's temp-file path is
presentation; we model its content.) -/
def export_month (wb : Workbook) (mk : String) (u : Option Nat) :
    Option Sheet :=
  match findSheet wb mk with
  | none => none
  | some ws =>
      some ⟨mk, HEADERS :: (ws.rows.drop 1).filter (exportKeeps u)⟩

/-! ## The Preset/Recency Store: `remember_place`, `get_recent_places` -/

/-- The presets document: an insertion-ordered map from string user id to
the places list (the JSON value's single `"places"` key is inlined). -/
abbrev Presets := List (String × List String)

/-- `presets.get(key, {}).get("places", [])`. -/
def presetsFind (p : Presets) (key : String) : Option (List String) :=
  (p.find? (fun kv => kv.1 == key)).map (·.2)

/-- Model of `remember_place` (src line 315): remove the place if present
(first occurrence, as `list.remove` does), insert at the front, truncate to
5; `setdefault` appends a missing user key at the end of the document. -/
def remember_place (p : Presets) (uid : Nat) (place : String) : Presets :=
  let key := toString uid
  let old := (presetsFind p key).getD []
  let newList := (place :: old.erase place).take 5
  match presetsFind p key with
  | some _ => p.map (fun kv => if kv.1 == key then (kv.1, newList) else kv)
  | none => p ++ [(key, newList)]

/-- Model of `get_recent_places` (src line 327). -/
def get_recent_places (p : Presets) (uid : Nat) : List String :=
  (presetsFind p (toString uid)).getD []

/-- A sequence of `remember_place` calls applied in order. -/
def applyOps (p : Presets) : List (Nat × String) → Presets
  | [] => p
  | (uid, pl) :: ops => applyOps (remember_place p uid pl) ops

/-! ## Digit and clock-text lemmas -/

theorem digitChar_toNat {d : Nat} (h : d < 10) : (digitChar d).toNat = 48 + d := by
  interval_cases d <;> rfl

theorem digitChar_isDigit {d : Nat} (h : d < 10) : (digitChar d).isDigit = true := by
  interval_cases d <;> rfl

theorem digitChar_beq_colon {d : Nat} (h : d < 10) : (digitChar d == ':') = false := by
  interval_cases d <;> rfl

theorem hhmm_data (h m : Nat) :
    (hhmm h m).data = [digitChar (h / 10), digitChar (h % 10), ':',
                       digitChar (m / 10), digitChar (m % 10)] := rfl

theorem splitCh_hhmm (h m : Nat) (hh : h < 100) (hm : m < 100) :
    splitCh ':' (hhmm h m).data =
      [[digitChar (h / 10), digitChar (h % 10)],
       [digitChar (m / 10), digitChar (m % 10)]] := by
  have c1 : (digitChar (h / 10) == ':') = false := digitChar_beq_colon (by omega)
  have c2 : (digitChar (h % 10) == ':') = false := digitChar_beq_colon (by omega)
  have c3 : (digitChar (m / 10) == ':') = false := digitChar_beq_colon (by omega)
  have c4 : (digitChar (m % 10) == ':') = false := digitChar_beq_colon (by omega)
  simp [hhmm_data, splitCh, c1, c2, c3, c4]

theorem digitsToNat_two {a b : Nat} (ha : a < 10) (hb : b < 10) :
    digitsToNat [digitChar a, digitChar b] = some (10 * a + b) := by
  simp [digitsToNat, digitChar_isDigit ha, digitChar_isDigit hb,
        digitChar_toNat ha, digitChar_toNat hb]

theorem parseIntPy_two_digits {a b : Nat} (ha : a < 10) (hb : b < 10) :
    parseIntPy (String.mk [digitChar a, digitChar b]) = some ((10 * a + b : Nat) : Int) := by
  have hplus : digitChar a ≠ '+' := by interval_cases a <;> decide
  have hminus : digitChar a ≠ '-' := by interval_cases a <;> decide
  unfold parseIntPy
  split
  · rename_i rest heq
    have h1 : digitChar a = '+' := by
      have h2 := congrArg (fun l => l.headD ' ') heq
      simpa using h2
    exact absurd h1 hplus
  · rename_i rest heq
    have h1 : digitChar a = '-' := by
      have h2 := congrArg (fun l => l.headD ' ') heq
      simpa using h2
    exact absurd h1 hminus
  · simp [digitsToNat_two ha hb]

theorem time_to_minutes_hhmm (h m : Nat) (hh : h < 100) (hm : m < 100) :
    time_to_minutes (hhmm h m) = some ((h : Int) * 60 + m) := by
  have e1 : parseIntPy (String.mk [digitChar (h / 10), digitChar (h % 10)]) =
      some ((10 * (h / 10) + h % 10 : Nat) : Int) :=
    parseIntPy_two_digits (by omega) (by omega)
  have e2 : parseIntPy (String.mk [digitChar (m / 10), digitChar (m % 10)]) =
      some ((10 * (m / 10) + m % 10 : Nat) : Int) :=
    parseIntPy_two_digits (by omega) (by omega)
  have hsplit := splitCh_hhmm h m hh hm
  have hh10 : 10 * (h / 10) + h % 10 = h := by omega
  have hm10 : 10 * (m / 10) + m % 10 = m := by omega
  rw [hh10] at e1
  rw [hm10] at e2
  simp [time_to_minutes, pySplit, hsplit, e1, e2]

/-! ## Claims -/

/-- Claim C3: for all minute values, `intervals_overlap` is true iff
`max(aStart, bStart) < min(aEnd, bEnd)`; a valid interval (`start < end`)
overlaps itself; touching intervals (`aEnd == bStart`) do not overlap
(half-open semantics).  The last conjunct ties the minute-space comparison
back to the string-level `intervals_overlap` of the source. -/
theorem C3_intervals_overlap_halfopen (aS aE bS bE : Int) :
    (overlapMinutes aS aE bS bE = true ↔ max aS bS < min aE bE) ∧
    (aS < aE → overlapMinutes aS aE aS aE = true) ∧
    overlapMinutes aS aE aE bE = false ∧
    (∀ sa ea sb eb : String,
      time_to_minutes sa = some aS → time_to_minutes ea = some aE →
      time_to_minutes sb = some bS → time_to_minutes eb = some bE →
      intervals_overlap sa ea sb eb = some (overlapMinutes aS aE bS bE)) := by
  refine ⟨by simp [overlapMinutes], ?_, ?_, ?_⟩
  · intro h
    simp only [overlapMinutes, decide_eq_true_eq]
    omega
  · simp only [overlapMinutes, decide_eq_false_iff_not]
    omega
  · intro sa ea sb eb h1 h2 h3 h4
    simp [intervals_overlap, h1, h2, h3, h4]

/-- Witness for C3 at the spec's own example: `08:00–10:00` overlaps itself
and the half-open comparison agrees. -/
theorem C3_intervals_overlap_halfopen_witness :
    overlapMinutes 480 600 480 600 = true ∧
    intervals_overlap "08:00" "10:00" "08:00" "10:00" = some true := by
  refine ⟨(C3_intervals_overlap_halfopen 480 600 480 600).2.1 (by decide), ?_⟩
  have h := (C3_intervals_overlap_halfopen 480 600 480 600).2.2.2
    "08:00" "10:00" "08:00" "10:00" (by decide) (by decide) (by decide) (by decide)
  simpa using h

/-- Modelled from the spec: `parseClockTime` accepts exactly `HH:MM`
24-hour text — five characters, two digit fields around a colon, hour below
24, minute below 60.  Used only to compare the spec's wording with what
`time_to_minutes` actually accepts. -/
def specIsHHMM (s : String) : Bool :=
  match s.data with
  | [h1, h2, c, m1, m2] =>
      c == ':' && h1.isDigit && h2.isDigit && m1.isDigit && m2.isDigit &&
      decide (10 * (h1.toNat - 48) + (h2.toNat - 48) < 24) &&
      decide (10 * (m1.toNat - 48) + (m2.toNat - 48) < 60)
  | _ => false

/-- Counterexample to C8: `"9:5"` is not of the `HH:MM` shape, yet
`time_to_minutes` parses it happily (Python `int` does not care about field
width), so parsing does not succeed *exactly* on `HH:MM` text. -/
theorem C8_counterexample :
    time_to_minutes "9:5" = some 545 ∧ specIsHHMM "9:5" = false := by
  constructor <;> rfl

/-- Claim C8 (amended): `time_to_minutes` succeeds on any `A:B` whose two
fields parse as Python integers — in particular on every zero-padded
`HH:MM`, returning `h*60+m` — without validating the two-digit 24-hour
shape; any other shape is rejected by a raised generic `ValueError`
(modelled `none`), not a typed `InvalidFormat`. -/
theorem C8_time_to_minutes_amended :
    (∀ h m : Nat, h ≤ 23 → m ≤ 59 →
      time_to_minutes (hhmm h m) = some ((h : Int) * 60 + m)) ∧
    time_to_minutes "9:5" = some 545 ∧
    time_to_minutes "-1:30" = some (-30) ∧
    time_to_minutes "ab:cd" = none ∧
    time_to_minutes "12" = none ∧
    time_to_minutes "1:2:3" = none := by
  refine ⟨fun h m hh hm => time_to_minutes_hhmm h m (by omega) (by omega),
    ?_, ?_, ?_, ?_, ?_⟩ <;> rfl

/-- Witness for the amended C8 at a concrete clock time. -/
theorem C8_time_to_minutes_amended_witness :
    time_to_minutes (hhmm 8 30) = some 510 := by
  have h := C8_time_to_minutes_amended.1 8 30 (by decide) (by decide)
  simpa using h

/-- The code-point list of a rendered clock string. -/
theorem hhmm_codes (h m : Nat) (hh : h < 100) (hm : m < 100) :
    (hhmm h m).data.map Char.toNat =
      [48 + h / 10, 48 + h % 10, 58, 48 + m / 10, 48 + m % 10] := by
  have d1 := digitChar_toNat (d := h / 10) (by omega)
  have d2 := digitChar_toNat (d := h % 10) (by omega)
  have d3 := digitChar_toNat (d := m / 10) (by omega)
  have d4 := digitChar_toNat (d := m % 10) (by omega)
  simp [hhmm_data, d1, d2, d3, d4]

/-- Claim C10: the `start >= end` checks of the panel and the time picker
compare the clock texts as Python strings; on zero-padded `HH:MM` text that
lexicographic order coincides with the order of the minute values, so the
check enforces exactly the strict minute ordering. -/
theorem C10_string_order_matches_minutes (h1 m1 h2 m2 : Nat)
    (hh1 : h1 ≤ 23) (hm1 : m1 ≤ 59) (hh2 : h2 ≤ 23) (hm2 : m2 ≤ 59) :
    (pyStrLt (hhmm h1 m1) (hhmm h2 m2) = true ↔ 60 * h1 + m1 < 60 * h2 + m2) ∧
    (pyStrGe (hhmm h1 m1) (hhmm h2 m2) = true ↔ ¬ (60 * h1 + m1 < 60 * h2 + m2)) ∧
    time_to_minutes (hhmm h1 m1) = some ((h1 : Int) * 60 + m1) := by
  have key : pyStrLt (hhmm h1 m1) (hhmm h2 m2) = true ↔
      60 * h1 + m1 < 60 * h2 + m2 := by
    rw [pyStrLt, hhmm_codes h1 m1 (by omega) (by omega),
        hhmm_codes h2 m2 (by omega) (by omega)]
    simp only [pyLtN, Bool.or_eq_true, Bool.and_eq_true, decide_eq_true_eq,
      beq_iff_eq, Nat.lt_iff_add_one_le, Bool.false_eq_true, and_false,
      or_false, true_and, and_true]
    omega
  refine ⟨key, ?_, time_to_minutes_hhmm h1 m1 (by omega) (by omega)⟩
  rw [pyStrGe]
  simp only [Bool.not_eq_true']
  rw [← Bool.not_eq_true (pyStrLt (hhmm h1 m1) (hhmm h2 m2))]
  exact not_congr key

/-- Witness for C10 at `08:00` vs `10:30` and at a reflexive pair. -/
theorem C10_string_order_matches_minutes_witness :
    pyStrLt (hhmm 8 0) (hhmm 10 30) = true ∧
    pyStrGe (hhmm 9 0) (hhmm 9 0) = true :=
  ⟨(C10_string_order_matches_minutes 8 0 10 30 (by decide) (by decide)
      (by decide) (by decide)).1.mpr (by decide),
   (C10_string_order_matches_minutes 9 0 9 0 (by decide) (by decide)
      (by decide) (by decide)).2.1.mpr (by decide)⟩

/-! ## Preset-store lemmas (C6) -/

/-- The shape every per-user places list keeps: no duplicates, at most 5
entries. -/
def goodLists (p : Presets) : Prop :=
  ∀ kv ∈ p, kv.2.Nodup ∧ kv.2.length ≤ 5

theorem goodLists_nil : goodLists [] := by
  intro kv h
  cases h

theorem presetsFind_mem {p : Presets} {key : String} {l : List String}
    (h : presetsFind p key = some l) : ∃ k, (k, l) ∈ p := by
  unfold presetsFind at h
  cases hf : p.find? (fun kv => kv.1 == key) with
  | none => rw [hf] at h; simp at h
  | some kv =>
      rw [hf] at h
      simp only [Option.map_some', Option.some.injEq] at h
      exact ⟨kv.1, by rw [← h]; exact List.mem_of_find?_eq_some hf⟩

theorem get_recent_places_remember (p : Presets) (uid : Nat) (pl : String) :
    get_recent_places (remember_place p uid pl) uid =
      (pl :: (get_recent_places p uid).erase pl).take 5 := by
  simp only [get_recent_places, remember_place]
  cases hx : p.find? (fun kv => kv.1 == toString uid) with
  | none =>
      have hf : presetsFind p (toString uid) = none := by
        simp [presetsFind, hx]
      rw [hf]
      simp only [Option.getD_none]
      have hout : presetsFind (p ++ [(toString uid, (pl :: List.erase [] pl).take 5)])
          (toString uid) = some ((pl :: List.erase [] pl).take 5) := by
        simp [presetsFind, List.find?_append, hx]
      rw [hout]
      simp
  | some kv =>
      have hf : presetsFind p (toString uid) = some kv.2 := by
        simp [presetsFind, hx]
      rw [hf]
      simp only [Option.getD_some]
      have hkey : (kv.1 == toString uid) = true := by
        simpa using List.find?_some hx
      have hout : presetsFind
          (p.map (fun kv0 => if kv0.1 == toString uid then
            (kv0.1, (pl :: (kv.2.erase pl)).take 5) else kv0))
          (toString uid) = some ((pl :: (kv.2.erase pl)).take 5) := by
        unfold presetsFind
        rw [List.find?_map]
        have hcomp : ((fun kv1 : String × List String => kv1.1 == toString uid) ∘
            (fun kv0 : String × List String =>
              if kv0.1 == toString uid then
                (kv0.1, (pl :: (kv.2.erase pl)).take 5)
              else kv0)) = (fun kv1 => kv1.1 == toString uid) := by
          funext x
          by_cases hc : x.1 = toString uid <;> simp [hc]
        rw [hcomp, hx]
        have hkeq : kv.1 = toString uid := by simpa using hkey
        simp [hkeq]
      rw [hout]
      simp

theorem goodLists_remember {p : Presets} (h : goodLists p) (uid : Nat)
    (pl : String) : goodLists (remember_place p uid pl) := by
  have hold : ((presetsFind p (toString uid)).getD []).Nodup := by
    cases hf : presetsFind p (toString uid) with
    | none => simp
    | some l =>
        obtain ⟨k, hk⟩ := presetsFind_mem hf
        simpa using (h _ hk).1
  have hnew : ∀ l0 : List String, l0.Nodup →
      ((pl :: l0.erase pl).take 5).Nodup ∧
      ((pl :: l0.erase pl).take 5).length ≤ 5 := by
    intro l0 h0
    constructor
    · refine (List.take_sublist 5 _).nodup ?_
      refine List.nodup_cons.mpr ⟨?_, h0.erase pl⟩
      intro hmem
      exact absurd rfl (h0.mem_erase_iff.mp hmem).1
    · simp
  intro kv hkv
  simp only [remember_place] at hkv
  cases hx : p.find? (fun kv => kv.1 == toString uid) with
  | none =>
      have hf : presetsFind p (toString uid) = none := by
        simp [presetsFind, hx]
      rw [hf] at hkv
      simp only [Option.getD_none] at hkv
      rcases List.mem_append.mp hkv with hin | hin
      · exact h _ hin
      · simp only [List.mem_singleton] at hin
        subst hin
        exact hnew [] (by simp)
  | some kv1 =>
      have hf : presetsFind p (toString uid) = some kv1.2 := by
        simp [presetsFind, hx]
      rw [hf] at hkv
      simp only [Option.getD_some] at hkv
      rcases List.mem_map.mp hkv with ⟨kv0, hkv0, heq⟩
      by_cases hc : (kv0.1 == toString uid) = true
      · rw [if_pos hc] at heq
        rw [← heq]
        have h1 : kv1.2.Nodup := by
          obtain ⟨k, hk⟩ := presetsFind_mem hf
          exact (h _ hk).1
        exact hnew kv1.2 h1
      · rw [if_neg hc] at heq
        rw [← heq]
        exact h _ hkv0

theorem goodLists_applyOps (p : Presets) (h : goodLists p)
    (ops : List (Nat × String)) : goodLists (applyOps p ops) := by
  induction ops generalizing p with
  | nil => simpa [applyOps] using h
  | cons op ops ih =>
      simpa [applyOps] using ih _ (goodLists_remember h op.1 op.2)

theorem get_recent_places_good {p : Presets} (h : goodLists p) (uid : Nat) :
    (get_recent_places p uid).Nodup ∧ (get_recent_places p uid).length ≤ 5 := by
  unfold get_recent_places
  cases hf : presetsFind p (toString uid) with
  | none => simp
  | some l =>
      obtain ⟨k, hk⟩ := presetsFind_mem hf
      simpa using h _ hk

theorem applyOps_append (p : Presets) (ops1 ops2 : List (Nat × String)) :
    applyOps p (ops1 ++ ops2) = applyOps (applyOps p ops1) ops2 := by
  induction ops1 generalizing p with
  | nil => rfl
  | cons op ops ih => simp [applyOps, ih]

/-- Claim C6: starting from an empty presets document, after any sequence of
`remember_place` calls the per-user places list has at most 5 entries and no
duplicates; a further `remember_place u p` makes the list
`p` followed by the old list with `p` removed, truncated to 5 (so the most
recent place is first and the relative order of the others is preserved);
an unknown user reads `[]`; and the spec's `A, B, A` example yields
`["A", "B"]`. -/
theorem C6_recent_places_lru (ops : List (Nat × String)) (uid : Nat)
    (pl : String) :
    (get_recent_places (applyOps [] ops) uid).length ≤ 5 ∧
    (get_recent_places (applyOps [] ops) uid).Nodup ∧
    get_recent_places (applyOps [] (ops ++ [(uid, pl)])) uid =
      (pl :: (get_recent_places (applyOps [] ops) uid).erase pl).take 5 ∧
    get_recent_places [] uid = [] ∧
    get_recent_places (applyOps [] [(7, "A"), (7, "B"), (7, "A")]) 7 = ["A", "B"] := by
  have hg := goodLists_applyOps [] goodLists_nil ops
  refine ⟨(get_recent_places_good hg uid).2, (get_recent_places_good hg uid).1,
    ?_, rfl, rfl⟩
  rw [applyOps_append]
  exact get_recent_places_remember _ uid pl

/-! ## Overlap-validator lemmas (C2, C9) -/

theorem conflictsPending_filter (s e : String) (mem : List PEntry)
    (acc : List (String × String)) :
    conflictsPending s e mem acc =
      conflictsPending s e
        (mem.filter (fun en => hasTimes en.start en.stop)) acc := by
  induction mem generalizing acc with
  | nil => rfl
  | cons en mem ih =>
      cases hk : hasTimes en.start en.stop with
      | true =>
          simp only [conflictsPending, List.filter_cons, hk, if_true]
          cases hov : overlapStep s e acc en.start en.stop with
          | none => simp
          | some acc2 => simp [ih acc2]
      | false =>
          simp only [conflictsPending, List.filter_cons, hk, Bool.false_eq_true,
            if_false]
          exact ih acc

theorem conflictsStored_filter (s e : String) (ex : Option String)
    (l : List REntry) (acc : List (String × String)) :
    conflictsStored s e ex l acc =
      conflictsStored s e ex
        (l.filter (fun en => hasTimes en.start en.stop)) acc := by
  induction l generalizing acc with
  | nil => rfl
  | cons en l ih =>
      cases hk : hasTimes en.start en.stop with
      | true =>
          simp only [conflictsStored, List.filter_cons, hk, if_true]
          by_cases hx : excludeSkip ex en.rid = true
          · simp only [hx, if_true]
            exact ih acc
          · simp only [hx, Bool.false_eq_true, if_false]
            cases hov : overlapStep s e acc en.start en.stop with
            | none => simp
            | some acc2 => simp [ih acc2]
      | false =>
          simp only [conflictsStored, List.filter_cons, hk, Bool.false_eq_true,
            if_false]
          by_cases hx : excludeSkip ex en.rid = true
          · simp only [hx, if_true]
            exact ih acc
          · simp only [hx, Bool.false_eq_true, if_false]
            exact ih acc

/-- Claim C9: an entry whose `start` or `end` field is empty (or missing,
which reads as empty) never contributes a conflict: both conflict loops of
`has_overlap`, and `has_overlap` itself on its pending list, are unchanged
when such entries are dropped. -/
theorem C9_empty_times_ignored (s e : String) (ex : Option String) :
    (∀ (mem : List PEntry) (acc : List (String × String)),
      conflictsPending s e mem acc =
        conflictsPending s e
          (mem.filter (fun en => hasTimes en.start en.stop)) acc) ∧
    (∀ (l : List REntry) (acc : List (String × String)),
      conflictsStored s e ex l acc =
        conflictsStored s e ex
          (l.filter (fun en => hasTimes en.start en.stop)) acc) ∧
    (∀ (wb : Workbook) (uid : Nat) (ds : String) (mem : List PEntry),
      has_overlap wb uid ds s e ex mem =
        has_overlap wb uid ds s e ex
          (mem.filter (fun en => hasTimes en.start en.stop))) := by
  refine ⟨conflictsPending_filter s e, conflictsStored_filter s e ex, ?_⟩
  intro wb uid ds mem
  unfold has_overlap
  rw [conflictsPending_filter]

theorem intervals_overlap_eq {aS aE bS bE : String} {x y z w : Int}
    (h1 : time_to_minutes aS = some x) (h2 : time_to_minutes aE = some y)
    (h3 : time_to_minutes bS = some z) (h4 : time_to_minutes bE = some w) :
    intervals_overlap aS aE bS bE = some (overlapMinutes x y z w) := by
  simp [intervals_overlap, h1, h2, h3, h4]

/-- The conflicts the pending loop is specified to produce: the pending
entries that carry an interval overlapping the candidate, in order. -/
def pendingConflicts (s e : String) (mem : List PEntry) :
    List (String × String) :=
  (mem.filter (fun en => hasTimes en.start en.stop &&
      (intervals_overlap s e en.start en.stop).getD false)).map
    (fun en => (en.start, en.stop))

/-- The conflicts the persisted loop is specified to produce: the stored
entries of the day, minus the excluded one, that carry an interval
overlapping the candidate, in order. -/
def storedConflicts (s e : String) (ex : Option String) (l : List REntry) :
    List (String × String) :=
  (l.filter (fun en => !excludeSkip ex en.rid &&
      (hasTimes en.start en.stop &&
        (intervals_overlap s e en.start en.stop).getD false))).map
    (fun en => (en.start, en.stop))

theorem overlapStep_some {s e st en : String}
    (hs : (time_to_minutes s).isSome = true)
    (he : (time_to_minutes e).isSome = true)
    (hst : (time_to_minutes st).isSome = true)
    (hen : (time_to_minutes en).isSome = true)
    (acc : List (String × String)) :
    overlapStep s e acc st en =
      some (if (intervals_overlap s e st en).getD false
            then acc ++ [(st, en)] else acc) := by
  obtain ⟨x, hx⟩ := Option.isSome_iff_exists.mp hs
  obtain ⟨y, hy⟩ := Option.isSome_iff_exists.mp he
  obtain ⟨z, hz⟩ := Option.isSome_iff_exists.mp hst
  obtain ⟨w, hw⟩ := Option.isSome_iff_exists.mp hen
  rw [overlapStep, intervals_overlap_eq hx hy hz hw]
  simp

theorem conflictsPending_ok {s e : String} {mem : List PEntry}
    (hs : (time_to_minutes s).isSome = true)
    (he : (time_to_minutes e).isSome = true)
    (hmem : ∀ en ∈ mem, hasTimes en.start en.stop = true →
      (time_to_minutes en.start).isSome = true ∧
      (time_to_minutes en.stop).isSome = true)
    (acc : List (String × String)) :
    conflictsPending s e mem acc = some (acc ++ pendingConflicts s e mem) := by
  induction mem generalizing acc with
  | nil => simp [conflictsPending, pendingConflicts]
  | cons en mem ih =>
      have ihm : ∀ en0 ∈ mem, hasTimes en0.start en0.stop = true →
          (time_to_minutes en0.start).isSome = true ∧
          (time_to_minutes en0.stop).isSome = true :=
        fun en0 h0 => hmem en0 (List.mem_cons_of_mem en h0)
      cases hk : hasTimes en.start en.stop with
      | true =>
          obtain ⟨hst, hen⟩ := hmem en (List.mem_cons_self en mem) hk
          rw [conflictsPending, if_pos hk, overlapStep_some hs he hst hen]
          cases hb : (intervals_overlap s e en.start en.stop).getD false with
          | true =>
              simp only [if_pos rfl, Option.some_bind, hb, if_true]
              rw [ih ihm]
              simp [pendingConflicts, List.filter_cons, hk, hb]
          | false =>
              simp only [Option.some_bind, hb, Bool.false_eq_true, if_false]
              rw [ih ihm]
              simp [pendingConflicts, List.filter_cons, hk, hb]
      | false =>
          rw [conflictsPending, if_neg (by simp [hk])]
          rw [ih ihm]
          simp [pendingConflicts, List.filter_cons, hk]

theorem conflictsStored_ok {s e : String} {ex : Option String}
    {l : List REntry}
    (hs : (time_to_minutes s).isSome = true)
    (he : (time_to_minutes e).isSome = true)
    (hl : ∀ en ∈ l, hasTimes en.start en.stop = true →
      (time_to_minutes en.start).isSome = true ∧
      (time_to_minutes en.stop).isSome = true)
    (acc : List (String × String)) :
    conflictsStored s e ex l acc = some (acc ++ storedConflicts s e ex l) := by
  induction l generalizing acc with
  | nil => simp [conflictsStored, storedConflicts]
  | cons en l ih =>
      have ihm : ∀ en0 ∈ l, hasTimes en0.start en0.stop = true →
          (time_to_minutes en0.start).isSome = true ∧
          (time_to_minutes en0.stop).isSome = true :=
        fun en0 h0 => hl en0 (List.mem_cons_of_mem en h0)
      by_cases hx : excludeSkip ex en.rid = true
      · rw [conflictsStored, if_pos hx, ih ihm]
        simp [storedConflicts, List.filter_cons, hx]
      · have hx0 : excludeSkip ex en.rid = false := by
          simpa using hx
        cases hk : hasTimes en.start en.stop with
        | true =>
            obtain ⟨hst, hen⟩ := hl en (List.mem_cons_self en l) hk
            rw [conflictsStored, if_neg hx, if_pos hk,
                overlapStep_some hs he hst hen]
            cases hb : (intervals_overlap s e en.start en.stop).getD false with
            | true =>
                simp only [Option.some_bind, hb, if_true]
                rw [ih ihm]
                simp [storedConflicts, List.filter_cons, hx0, hk, hb]
            | false =>
                simp only [Option.some_bind, hb, Bool.false_eq_true, if_false]
                rw [ih ihm]
                simp [storedConflicts, List.filter_cons, hx0, hk, hb]
        | false =>
            rw [conflictsStored, if_neg hx, if_neg (by simp [hk]), ih ihm]
            simp [storedConflicts, List.filter_cons, hx0, hk]

/-- Counterexample to C2: `has_overlap` is not exception-free — with a
malformed candidate time `"xx"` and one pending entry carrying times, the
`int` conversion inside `intervals_overlap` raises (modelled `none`), so
the call throws instead of reporting. -/
theorem C2_counterexample :
    has_overlap freshWorkbook 1 "01.06.2025" "xx" "10:00" none
      [⟨"Office", "08:00", "09:00", "", ""⟩] = none := by
  rfl

/-- Claim C2 (amended): provided the candidate times parse and every
considered entry that carries times has parsable times, `has_overlap`
returns (without throwing) exactly the overlapping pending intervals in
order, followed by the overlapping persisted intervals of the day minus the
excluded entry, and the flag is true iff that list is non-empty.  On inputs
with malformed time text the call raises a `ValueError` instead (see the
counterexample). -/
theorem C2_check_overlap_amended (wb : Workbook) (uid : Nat) (ds : String)
    (s e : String) (ex : Option String) (mem : List PEntry) (l : List REntry)
    (hs : (time_to_minutes s).isSome = true)
    (he : (time_to_minutes e).isSome = true)
    (hmem : ∀ en ∈ mem, hasTimes en.start en.stop = true →
      (time_to_minutes en.start).isSome = true ∧
      (time_to_minutes en.stop).isSome = true)
    (hread : read_entries_for_day wb uid ds = some l)
    (hstored : ∀ en ∈ l, hasTimes en.start en.stop = true →
      (time_to_minutes en.start).isSome = true ∧
      (time_to_minutes en.stop).isSome = true) :
    has_overlap wb uid ds s e ex mem =
      some (decide (0 < (pendingConflicts s e mem ++ storedConflicts s e ex l).length),
            pendingConflicts s e mem ++ storedConflicts s e ex l) := by
  unfold has_overlap
  rw [conflictsPending_ok hs he hmem, hread]
  simp [conflictsStored_ok hs he hstored]

/-- Witness for the amended C2: one stored entry `08:00–10:00`, one pending
entry `09:30–11:00`, candidate `09:00–10:30` — both conflicts reported,
pending first. -/
theorem C2_check_overlap_amended_witness :
    has_overlap ⟨[⟨"2025-06",
        [HEADERS, ["42_01.06.2025_1", "01.06.2025", "Jan", "Office",
                   "08:00", "10:00", "", ""]]⟩]⟩
      42 "01.06.2025" "09:00" "10:30" none
      [⟨"Warehouse", "09:30", "11:00", "", ""⟩] =
      some (true, [("09:30", "11:00"), ("08:00", "10:00")]) := by
  have h := C2_check_overlap_amended
    ⟨[⟨"2025-06",
        [HEADERS, ["42_01.06.2025_1", "01.06.2025", "Jan", "Office",
                   "08:00", "10:00", "", ""]]⟩]⟩
    42 "01.06.2025" "09:00" "10:30" none
    [⟨"Warehouse", "09:30", "11:00", "", ""⟩]
    [⟨"42_01.06.2025_1", "01.06.2025", "Jan", "Office",
      "08:00", "10:00", "", ""⟩]
    (by decide) (by decide) (by decide) (by decide) (by decide)
  exact h.trans (by decide)

/-! ## Report-ledger lemmas (C1) -/

theorem ensureMonthSheet_name (wb : Workbook) (mk : String) :
    (ensureMonthSheet wb mk).1.name = mk := by
  unfold ensureMonthSheet
  cases hx : findSheet wb mk with
  | none => rfl
  | some ws =>
      have hx2 : wb.sheets.find? (fun s => s.name == mk) = some ws := hx
      have h := List.find?_some hx2
      simpa using h

theorem findSheet_head {mk : String} (head : Sheet) (rest : List Sheet)
    (hname : head.name = mk) : findSheet ⟨head :: rest⟩ mk = some head := by
  simp [findSheet, List.find?_cons, hname]

theorem appendedRows_ids (pre ds name : String) (seq : Int)
    (entries : List PEntry) :
    (appendedRows pre ds name seq entries).map (fun r => r.headD "") =
      (List.range entries.length).map
        (fun i : Nat => pre ++ toString (seq + (i : Int))) := by
  induction entries generalizing seq with
  | nil => rfl
  | cons e es ih =>
      simp only [appendedRows, List.map_cons, List.length_cons,
        List.range_succ_eq_map, List.map_map, List.headD_cons,
        List.cons.injEq]
      constructor
      · simp
      · rw [ih (seq + 1)]
        apply List.map_congr_left
        intro i _
        simp only [Function.comp_apply]
        congr 2
        push_cast
        omega

theorem appendedRows_fields (pre ds name : String) (seq : Int)
    (entries : List PEntry) :
    (appendedRows pre ds name seq entries).map
        (fun r => (r.getD 1 "", r.getD 2 "", r.getD 3 "", r.getD 4 "",
                   r.getD 5 "", r.getD 6 "", r.getD 7 "")) =
      entries.map
        (fun e => (ds, name, e.place, e.start, e.stop, e.tasks, e.notes)) := by
  induction entries generalizing seq with
  | nil => rfl
  | cons e es ih =>
      simp only [appendedRows, List.map_cons, List.cons.injEq]
      refine ⟨by simp, ih (seq + 1)⟩

theorem le_foldl_max (l : List Int) (x0 : Int) : x0 ≤ l.foldl max x0 := by
  induction l generalizing x0 with
  | nil => exact le_refl x0
  | cons a as ih => exact le_trans (le_max_left x0 a) (ih (max x0 a))

theorem mem_le_foldl_max {l : List Int} {x : Int} (hx : x ∈ l) (x0 : Int) :
    x ≤ l.foldl max x0 := by
  induction l generalizing x0 with
  | nil => cases hx
  | cons a as ih =>
      rw [List.foldl_cons]
      rcases List.mem_cons.mp hx with h | h
      · subst h
        exact le_trans (le_max_right x0 x) (le_foldl_max as (max x0 x))
      · exact ih h (max x0 a)

theorem lt_nextIdx {l : List Int} {x : Int} (hx : x ∈ l) : x < nextIdx l := by
  cases l with
  | nil => cases hx
  | cons a as =>
      rw [nextIdx]
      rcases List.mem_cons.mp hx with h | h
      · subst h
        exact lt_of_le_of_lt (le_foldl_max as x) (by omega)
      · exact lt_of_le_of_lt (mem_le_foldl_max h a) (by omega)

/-- Modelled from the spec: `nextSequence(existingIds) = 1` if the scope has
no sequences, else `1 + max(existing sequences)`. -/
def specNextSequence (seqs : List Int) : Int :=
  match seqs.max? with
  | none => 1
  | some m => m + 1

theorem nextIdx_eq_spec (l : List Int) : nextIdx l = specNextSequence l := by
  cases l <;> rfl

/-- Claim C1: `save_report` computes the next sequence once for the batch as
`max(existing sequences of the (userId, date) scope) + 1` (`1` if none),
appends the batch after the existing rows (never renumbering them), and the
appended ids are consecutive `prefix ++ (seq + i)` in the caller-supplied
order, each row carrying its entry's fields.  The hypothesis `hhead` states
the ensured month sheet has its header row (every sheet the ledger itself
creates does). -/
theorem C1_save_report_batch_sequencing (wb : Workbook)
    (entries : List PEntry) (uid : Nat) (ds name mk : String) (wb' : Workbook)
    (hmk : month_key_from_date ds = some mk)
    (hhead : (ensureMonthSheet wb mk).1.rows ≠ [])
    (hsave : save_report wb entries uid ds name = .ok wb') :
    nextIdx (existingIdxs ((ensureMonthSheet wb mk).1.rows.drop 1)
        (scopePre uid ds)) =
      specNextSequence (existingIdxs ((ensureMonthSheet wb mk).1.rows.drop 1)
        (scopePre uid ds)) ∧
    (∀ x ∈ existingIdxs ((ensureMonthSheet wb mk).1.rows.drop 1)
        (scopePre uid ds),
      x < nextIdx (existingIdxs ((ensureMonthSheet wb mk).1.rows.drop 1)
        (scopePre uid ds))) ∧
    dayDataRows wb' mk =
      (ensureMonthSheet wb mk).1.rows.drop 1 ++
        appendedRows (scopePre uid ds) ds name
          (nextIdx (existingIdxs ((ensureMonthSheet wb mk).1.rows.drop 1)
            (scopePre uid ds))) entries ∧
    (∀ seq : Int,
      (appendedRows (scopePre uid ds) ds name seq entries).map
          (fun r => r.headD "") =
        (List.range entries.length).map
          (fun i : Nat => scopePre uid ds ++ toString (seq + (i : Int)))) ∧
    (∀ seq : Int,
      (appendedRows (scopePre uid ds) ds name seq entries).map
          (fun r => (r.getD 1 "", r.getD 2 "", r.getD 3 "", r.getD 4 "",
                     r.getD 5 "", r.getD 6 "", r.getD 7 "")) =
        entries.map
          (fun e => (ds, name, e.place, e.start, e.stop, e.tasks, e.notes))) := by
  refine ⟨nextIdx_eq_spec _, fun x hx => lt_nextIdx hx, ?_,
    fun seq => appendedRows_ids _ _ _ seq entries,
    fun seq => appendedRows_fields _ _ _ seq entries⟩
  simp only [save_report, hmk] at hsave
  injection hsave with h
  subst h
  rw [dayDataRows, findSheet_head _ _ (by simpa using ensureMonthSheet_name wb mk)]
  simp only []
  apply List.drop_append_of_le_length
  cases hr : (ensureMonthSheet wb mk).1.rows with
  | nil => exact absurd hr hhead
  | cons r rs => simp

/-- Witness for C1: appending a two-entry batch to a store already holding
sequence 1 for the scope persists ids `…_2` and `…_3` after the untouched
old row. -/
theorem C1_save_report_batch_sequencing_witness :
    save_report
        (⟨[⟨"2025-06",
          [HEADERS, ["42_01.06.2025_1", "01.06.2025", "Jan", "Office",
                     "08:00", "10:00", "", ""]]⟩]⟩ : Workbook)
        [⟨"Lab", "10:00", "11:00", "x", ""⟩, ⟨"Lab", "11:00", "12:00", "y", ""⟩]
        42 "01.06.2025" "Jan" =
      .ok (⟨[⟨"2025-06",
        [HEADERS,
         ["42_01.06.2025_1", "01.06.2025", "Jan", "Office", "08:00", "10:00", "", ""],
         ["42_01.06.2025_2", "01.06.2025", "Jan", "Lab", "10:00", "11:00", "x", ""],
         ["42_01.06.2025_3", "01.06.2025", "Jan", "Lab", "11:00", "12:00", "y", ""]]⟩]⟩ : Workbook) ∧
    dayDataRows
        (⟨[⟨"2025-06",
          [HEADERS,
           ["42_01.06.2025_1", "01.06.2025", "Jan", "Office", "08:00", "10:00", "", ""],
           ["42_01.06.2025_2", "01.06.2025", "Jan", "Lab", "10:00", "11:00", "x", ""],
           ["42_01.06.2025_3", "01.06.2025", "Jan", "Lab", "11:00", "12:00", "y", ""]]⟩]⟩ : Workbook)
        "2025-06" =
      [["42_01.06.2025_1", "01.06.2025", "Jan", "Office", "08:00", "10:00", "", ""],
       ["42_01.06.2025_2", "01.06.2025", "Jan", "Lab", "10:00", "11:00", "x", ""],
       ["42_01.06.2025_3", "01.06.2025", "Jan", "Lab", "11:00", "12:00", "y", ""]] := by
  constructor
  · rfl
  · have h := C1_save_report_batch_sequencing
      (⟨[⟨"2025-06",
        [HEADERS, ["42_01.06.2025_1", "01.06.2025", "Jan", "Office",
                   "08:00", "10:00", "", ""]]⟩]⟩ : Workbook)
      [⟨"Lab", "10:00", "11:00", "x", ""⟩, ⟨"Lab", "11:00", "12:00", "y", ""⟩]
      42 "01.06.2025" "Jan" "2025-06"
      (⟨[⟨"2025-06",
        [HEADERS,
         ["42_01.06.2025_1", "01.06.2025", "Jan", "Office", "08:00", "10:00", "", ""],
         ["42_01.06.2025_2", "01.06.2025", "Jan", "Lab", "10:00", "11:00", "x", ""],
         ["42_01.06.2025_3", "01.06.2025", "Jan", "Lab", "11:00", "12:00", "y", ""]]⟩]⟩ : Workbook)
      (by decide) (by decide) rfl
    exact h.2.2.1.trans (by decide)

/-! ## Update-field lemmas (C4, C5) -/

theorem ensure_dataRows (wb : Workbook) (mk : String) :
    (ensureMonthSheet wb mk).1.rows.drop 1 = dayDataRows wb mk := by
  unfold ensureMonthSheet dayDataRows
  cases findSheet wb mk <;> rfl

theorem find?_eraseP_of_never {p q : Sheet → Bool} (l : List Sheet)
    (hpq : ∀ x, q x = true → p x = false) :
    (l.eraseP q).find? p = l.find? p := by
  induction l with
  | nil => rfl
  | cons a l ih =>
      cases hq : q a with
      | true =>
          rw [List.eraseP_cons, hq]
          simp only [cond_true]
          rw [List.find?_cons, hpq a hq]
      | false =>
          rw [List.eraseP_cons, hq]
          simp only [cond_false]
          rw [List.find?_cons, List.find?_cons]
          cases hp : p a
          · exact ih
          · rfl

theorem headD_eq_getD (l : List String) : l.headD "" = l.getD 0 "" := by
  cases l <;> rfl

theorem getD_append_pad (r : Row) (k j : Nat) :
    (r ++ List.replicate k "").getD j "" = r.getD j "" := by
  rw [List.getD_eq_getElem?_getD, List.getD_eq_getElem?_getD]
  by_cases h : j < r.length
  · rw [List.getElem?_append_left h]
  · rw [List.getElem?_append_right (by omega), List.getElem?_replicate]
    rw [List.getElem?_eq_none (by omega)]
    split <;> simp

theorem setCell_getD_self (r : Row) (c : Nat) (v : String) :
    (setCell r c v).getD c "" = v := by
  have hlen : c < (r ++ List.replicate (c + 1 - r.length) "").length := by
    rw [List.length_append, List.length_replicate]
    omega
  rw [setCell, List.getD_eq_getElem?_getD, List.getElem?_set_self',
      List.getElem?_eq_getElem hlen]
  simp

theorem setCell_getD_ne (r : Row) (c : Nat) (v : String) (j : Nat)
    (hj : j ≠ c) : (setCell r c v).getD j "" = r.getD j "" := by
  rw [setCell, List.getD_eq_getElem?_getD,
      List.getElem?_set_ne (fun h => hj h.symm),
      ← List.getD_eq_getElem?_getD]
  exact getD_append_pad r _ j

theorem fieldCol_ne_zero (f : Field) : fieldCol f ≠ 0 := by
  cases f <;> simp [fieldCol]

theorem dayDataRows_frame (ws' : Sheet) (wb : Workbook) (mk n : String)
    (hname : ws'.name = mk) (hne : n ≠ mk) :
    dayDataRows ⟨ws' :: wb.sheets.eraseP (fun s => s.name == mk)⟩ n =
      dayDataRows wb n := by
  have hpa : (ws'.name == n) = false := by
    rw [hname, beq_eq_false_iff_ne]
    exact fun h => hne h.symm
  have herase : (wb.sheets.eraseP (fun s => s.name == mk)).find?
      (fun s => s.name == n) = wb.sheets.find? (fun s => s.name == n) := by
    apply find?_eraseP_of_never
    intro x hx
    have hx2 : x.name = mk := by simpa using hx
    rw [beq_eq_false_iff_ne, hx2]
    exact fun h => hne h.symm
  unfold dayDataRows findSheet
  rw [List.find?_cons, hpa, herase]

theorem ensure_rest_of_found {wb : Workbook} {mk : String} {ws0 : Sheet}
    (hfs : findSheet wb mk = some ws0) :
    (ensureMonthSheet wb mk).2 = wb.sheets.eraseP (fun s => s.name == mk) := by
  unfold ensureMonthSheet
  rw [hfs]

/-- Claim C4: a successful `update_report_field` rewrites exactly the one
target cell of the located row: the row is found by id, the named field
takes the new value, every other cell of that row (the id cell in
particular) is unchanged, every other row of the month sheet is unchanged
(`List.set` at one index), and every other sheet of the store is
unchanged. -/
theorem C4_update_single_cell (wb : Workbook) (uid : Nat) (ds rid : String)
    (f : Field) (v : String) (mk : String) (wb' : Workbook)
    (hmk : month_key_from_date ds = some mk)
    (hok : update_report_field wb uid ds rid f v = .ok wb') :
    ∃ i,
      (dayDataRows wb mk).findIdx? (fun r => r.headD "" == rid) = some i ∧
      dayDataRows wb' mk =
        (dayDataRows wb mk).set i
          (setCell ((dayDataRows wb mk).getD i []) (fieldCol f) v) ∧
      (setCell ((dayDataRows wb mk).getD i []) (fieldCol f) v).getD
          (fieldCol f) "" = v ∧
      (∀ j, j ≠ fieldCol f →
        (setCell ((dayDataRows wb mk).getD i []) (fieldCol f) v).getD j "" =
          ((dayDataRows wb mk).getD i []).getD j "") ∧
      (setCell ((dayDataRows wb mk).getD i []) (fieldCol f) v).headD "" =
        ((dayDataRows wb mk).getD i []).headD "" ∧
      (∀ n, n ≠ mk → dayDataRows wb' n = dayDataRows wb n) := by
  simp only [update_report_field, hmk] at hok
  rw [ensure_dataRows] at hok
  cases hidx : (dayDataRows wb mk).findIdx? (fun r => r.headD "" == rid) with
  | none =>
      rw [hidx] at hok
      cases hok
  | some i =>
      rw [hidx] at hok
      injection hok with h
      subst h
      cases hfs : findSheet wb mk with
      | none =>
          exfalso
          have hempty : dayDataRows wb mk = [] := by
            unfold dayDataRows
            rw [hfs]
          rw [hempty] at hidx
          cases hidx
      | some ws0 =>
          refine ⟨i, rfl, ?_, setCell_getD_self _ _ _,
            fun j hj => setCell_getD_ne _ _ _ j hj, ?_, ?_⟩
          · rw [dayDataRows,
              findSheet_head _ _ (by simpa using ensureMonthSheet_name wb mk)]
            simp only [List.drop_set, Nat.lt_one_iff, Nat.add_one_ne_zero,
              if_false, Nat.add_sub_cancel]
            rw [ensure_dataRows]
          · rw [headD_eq_getD, headD_eq_getD]
            exact setCell_getD_ne _ _ _ 0 (fun h => fieldCol_ne_zero f h.symm)
          · intro n hn
            have hrest := ensure_rest_of_found hfs
            rw [hrest]
            exact dayDataRows_frame _ wb mk n (ensureMonthSheet_name wb mk) hn

/-- Witness for C4: updating the `start` cell of the second row rewrites
only that cell. -/
theorem C4_update_single_cell_witness :
    (∃ i,
      (dayDataRows
          (⟨[⟨"2025-06",
            [HEADERS,
             ["42_01.06.2025_1", "01.06.2025", "Jan", "Office", "08:00", "10:00", "", ""],
             ["42_01.06.2025_2", "01.06.2025", "Jan", "Lab", "09:00", "11:00", "x", ""]]⟩]⟩ :
            Workbook) "2025-06").findIdx?
        (fun r => r.headD "" == "42_01.06.2025_2") = some i ∧
      dayDataRows
          (⟨[⟨"2025-06",
            [HEADERS,
             ["42_01.06.2025_1", "01.06.2025", "Jan", "Office", "08:00", "10:00", "", ""],
             ["42_01.06.2025_2", "01.06.2025", "Jan", "Lab", "10:00", "11:00", "x", ""]]⟩]⟩ :
            Workbook) "2025-06" =
        (dayDataRows
          (⟨[⟨"2025-06",
            [HEADERS,
             ["42_01.06.2025_1", "01.06.2025", "Jan", "Office", "08:00", "10:00", "", ""],
             ["42_01.06.2025_2", "01.06.2025", "Jan", "Lab", "09:00", "11:00", "x", ""]]⟩]⟩ :
            Workbook) "2025-06").set i
          (setCell ((dayDataRows
            (⟨[⟨"2025-06",
              [HEADERS,
               ["42_01.06.2025_1", "01.06.2025", "Jan", "Office", "08:00", "10:00", "", ""],
               ["42_01.06.2025_2", "01.06.2025", "Jan", "Lab", "09:00", "11:00", "x", ""]]⟩]⟩ :
              Workbook) "2025-06").getD i []) (fieldCol Field.start) "10:00") ∧
      (setCell ((dayDataRows
          (⟨[⟨"2025-06",
            [HEADERS,
             ["42_01.06.2025_1", "01.06.2025", "Jan", "Office", "08:00", "10:00", "", ""],
             ["42_01.06.2025_2", "01.06.2025", "Jan", "Lab", "09:00", "11:00", "x", ""]]⟩]⟩ :
            Workbook) "2025-06").getD i []) (fieldCol Field.start) "10:00").getD
          (fieldCol Field.start) "" = "10:00" ∧
      (∀ j, j ≠ fieldCol Field.start →
        (setCell ((dayDataRows
            (⟨[⟨"2025-06",
              [HEADERS,
               ["42_01.06.2025_1", "01.06.2025", "Jan", "Office", "08:00", "10:00", "", ""],
               ["42_01.06.2025_2", "01.06.2025", "Jan", "Lab", "09:00", "11:00", "x", ""]]⟩]⟩ :
              Workbook) "2025-06").getD i []) (fieldCol Field.start) "10:00").getD j "" =
          ((dayDataRows
            (⟨[⟨"2025-06",
              [HEADERS,
               ["42_01.06.2025_1", "01.06.2025", "Jan", "Office", "08:00", "10:00", "", ""],
               ["42_01.06.2025_2", "01.06.2025", "Jan", "Lab", "09:00", "11:00", "x", ""]]⟩]⟩ :
              Workbook) "2025-06").getD i []).getD j "") ∧
      (setCell ((dayDataRows
          (⟨[⟨"2025-06",
            [HEADERS,
             ["42_01.06.2025_1", "01.06.2025", "Jan", "Office", "08:00", "10:00", "", ""],
             ["42_01.06.2025_2", "01.06.2025", "Jan", "Lab", "09:00", "11:00", "x", ""]]⟩]⟩ :
            Workbook) "2025-06").getD i []) (fieldCol Field.start) "10:00").headD "" =
        ((dayDataRows
          (⟨[⟨"2025-06",
            [HEADERS,
             ["42_01.06.2025_1", "01.06.2025", "Jan", "Office", "08:00", "10:00", "", ""],
             ["42_01.06.2025_2", "01.06.2025", "Jan", "Lab", "09:00", "11:00", "x", ""]]⟩]⟩ :
            Workbook) "2025-06").getD i []).headD "" ∧
      (∀ n, n ≠ "2025-06" →
        dayDataRows
          (⟨[⟨"2025-06",
            [HEADERS,
             ["42_01.06.2025_1", "01.06.2025", "Jan", "Office", "08:00", "10:00", "", ""],
             ["42_01.06.2025_2", "01.06.2025", "Jan", "Lab", "10:00", "11:00", "x", ""]]⟩]⟩ :
            Workbook) n =
        dayDataRows
          (⟨[⟨"2025-06",
            [HEADERS,
             ["42_01.06.2025_1", "01.06.2025", "Jan", "Office", "08:00", "10:00", "", ""],
             ["42_01.06.2025_2", "01.06.2025", "Jan", "Lab", "09:00", "11:00", "x", ""]]⟩]⟩ :
            Workbook) n)) ∧
    dayDataRows
        (⟨[⟨"2025-06",
          [HEADERS,
           ["42_01.06.2025_1", "01.06.2025", "Jan", "Office", "08:00", "10:00", "", ""],
           ["42_01.06.2025_2", "01.06.2025", "Jan", "Lab", "10:00", "11:00", "x", ""]]⟩]⟩ :
          Workbook) "2025-06" =
      [["42_01.06.2025_1", "01.06.2025", "Jan", "Office", "08:00", "10:00", "", ""],
       ["42_01.06.2025_2", "01.06.2025", "Jan", "Lab", "10:00", "11:00", "x", ""]] :=
  ⟨C4_update_single_cell
    (⟨[⟨"2025-06",
      [HEADERS,
       ["42_01.06.2025_1", "01.06.2025", "Jan", "Office", "08:00", "10:00", "", ""],
       ["42_01.06.2025_2", "01.06.2025", "Jan", "Lab", "09:00", "11:00", "x", ""]]⟩]⟩ :
      Workbook)
    42 "01.06.2025" "42_01.06.2025_2" Field.start "10:00" "2025-06"
    (⟨[⟨"2025-06",
      [HEADERS,
       ["42_01.06.2025_1", "01.06.2025", "Jan", "Office", "08:00", "10:00", "", ""],
       ["42_01.06.2025_2", "01.06.2025", "Jan", "Lab", "10:00", "11:00", "x", ""]]⟩]⟩ :
      Workbook)
    (by decide) rfl, by decide⟩

/-- Claim C5: `update_report_field` succeeds exactly when a row whose id
cell equals `rid` exists in the month partition derived from the date; when
none does, the failure is the typed `entryNotFound` and the persisted store
is left exactly as it was (the source raises before `_atomic_save_wb`, so
nothing is written). -/
theorem C5_update_entry_not_found (wb : Workbook) (uid : Nat)
    (ds rid : String) (f : Field) (v : String) (mk : String)
    (hmk : month_key_from_date ds = some mk) :
    ((update_report_persisted wb uid ds rid f v).2 = none ↔
      ∃ r ∈ dayDataRows wb mk, r.headD "" = rid) ∧
    ((update_report_persisted wb uid ds rid f v).2 ≠ none →
      (update_report_persisted wb uid ds rid f v).2 = some .entryNotFound ∧
      (update_report_persisted wb uid ds rid f v).1 = wb) := by
  simp only [update_report_persisted, update_report_field, hmk]
  rw [ensure_dataRows]
  cases hidx : (dayDataRows wb mk).findIdx? (fun r => r.headD "" == rid) with
  | none =>
      have hall := List.findIdx?_eq_none_iff.mp hidx
      constructor
      · simp only []
        constructor
        · intro h
          cases h
        · rintro ⟨r, hr, hrid⟩
          have := hall r hr
          simp only [beq_eq_false_iff_ne] at this
          exact absurd hrid this
      · intro _
        exact ⟨rfl, rfl⟩
  | some i =>
      obtain ⟨hlt, hp, _⟩ := List.findIdx?_eq_some_iff_getElem.mp hidx
      constructor
      · simp only []
        constructor
        · intro _
          exact ⟨(dayDataRows wb mk)[i], List.getElem_mem hlt, by simpa using hp⟩
        · intro _
          trivial
      · intro h
        exact absurd rfl h

/-- Witness for C5: updating a missing id fails with `entryNotFound` and
leaves the store untouched; updating a present id succeeds. -/
theorem C5_update_entry_not_found_witness :
    (((update_report_persisted
        (⟨[⟨"2025-06",
          [HEADERS,
           ["42_01.06.2025_1", "01.06.2025", "Jan", "Office", "08:00", "10:00", "", ""]]⟩]⟩ :
          Workbook)
        42 "01.06.2025" "42_01.06.2025_9" Field.notes "gone").2 = none ↔
      ∃ r ∈ dayDataRows
          (⟨[⟨"2025-06",
            [HEADERS,
             ["42_01.06.2025_1", "01.06.2025", "Jan", "Office", "08:00", "10:00", "", ""]]⟩]⟩ :
            Workbook) "2025-06", r.headD "" = "42_01.06.2025_9") ∧
      ((update_report_persisted
        (⟨[⟨"2025-06",
          [HEADERS,
           ["42_01.06.2025_1", "01.06.2025", "Jan", "Office", "08:00", "10:00", "", ""]]⟩]⟩ :
          Workbook)
        42 "01.06.2025" "42_01.06.2025_9" Field.notes "gone").2 ≠ none →
      (update_report_persisted
        (⟨[⟨"2025-06",
          [HEADERS,
           ["42_01.06.2025_1", "01.06.2025", "Jan", "Office", "08:00", "10:00", "", ""]]⟩]⟩ :
          Workbook)
        42 "01.06.2025" "42_01.06.2025_9" Field.notes "gone").2 =
          some .entryNotFound ∧
      (update_report_persisted
        (⟨[⟨"2025-06",
          [HEADERS,
           ["42_01.06.2025_1", "01.06.2025", "Jan", "Office", "08:00", "10:00", "", ""]]⟩]⟩ :
          Workbook)
        42 "01.06.2025" "42_01.06.2025_9" Field.notes "gone").1 =
        (⟨[⟨"2025-06",
          [HEADERS,
           ["42_01.06.2025_1", "01.06.2025", "Jan", "Office", "08:00", "10:00", "", ""]]⟩]⟩ :
          Workbook))) ∧
    (update_report_persisted
        (⟨[⟨"2025-06",
          [HEADERS,
           ["42_01.06.2025_1", "01.06.2025", "Jan", "Office", "08:00", "10:00", "", ""]]⟩]⟩ :
          Workbook)
        42 "01.06.2025" "42_01.06.2025_9" Field.notes "gone").2 =
      some LedgerErr.entryNotFound :=
  ⟨C5_update_entry_not_found
    (⟨[⟨"2025-06",
      [HEADERS,
       ["42_01.06.2025_1", "01.06.2025", "Jan", "Office", "08:00", "10:00", "", ""]]⟩]⟩ :
      Workbook)
    42 "01.06.2025" "42_01.06.2025_9" Field.notes "gone" "2025-06" (by decide),
   rfl⟩

/-! ## Export lemmas (C7) -/

/-- Counterexample to C7: exporting with `userId = 0` is treated by the
source's truthiness test (`if user_id and ...`) as "no user filter": the
artifact keeps the row `1_x_1`, which does not start with `"0_"`, so the
artifact is not "exactly the rows whose id starts with `{userId}_`". -/
theorem C7_counterexample :
    export_month
        (⟨[⟨"2025-06",
          [HEADERS,
           ["1_x_1", "d", "n", "p", "08:00", "09:00", "", ""],
           ["0_x_1", "d", "n", "p", "10:00", "11:00", "", ""]]⟩]⟩ : Workbook)
        "2025-06" (some 0) =
      some ⟨"2025-06",
        [HEADERS,
         ["1_x_1", "d", "n", "p", "08:00", "09:00", "", ""],
         ["0_x_1", "d", "n", "p", "10:00", "11:00", "", ""]]⟩ ∧
    pyStartsWith "1_x_1" "0_" = false := by
  constructor <;> rfl

/-- Claim C7 (amended): `export_month` returns `notFound` exactly when the
month partition is missing; otherwise the artifact is the header row plus
exactly those data rows with a non-empty id cell that, when a *non-zero*
user id is supplied, start with `"{userId}_"` — with no user id, or user
id `0` (falsy in the source), every non-empty-id row is kept. -/
theorem C7_export_month_amended (wb : Workbook) (mk : String)
    (u : Option Nat) :
    (export_month wb mk u = none ↔ findSheet wb mk = none) ∧
    (∀ ws, findSheet wb mk = some ws →
      export_month wb mk u =
        some ⟨mk, HEADERS :: (ws.rows.drop 1).filter (fun r =>
          r.headD "" != "" &&
          (match u with
           | none => true
           | some v => (v == 0) || pyStartsWith (r.headD "") (toString v ++ "_")))⟩) := by
  have hpred : ∀ r : Row, exportKeeps u r =
      (r.headD "" != "" &&
        (match u with
         | none => true
         | some v => (v == 0) || pyStartsWith (r.headD "") (toString v ++ "_"))) := by
    intro r
    cases u with
    | none => simp [exportKeeps, pyTruthyOptNat]
    | some v =>
        by_cases hv : v = 0
        · subst hv
          simp [exportKeeps, pyTruthyOptNat]
        · have h1 : (v != 0) = true := by simpa using hv
          have h2 : (v == 0) = false := by simpa using hv
          simp [exportKeeps, pyTruthyOptNat, h1, h2]
  unfold export_month
  cases hfs : findSheet wb mk with
  | none =>
      refine ⟨by simp, ?_⟩
      intro ws hws
      cases hws
  | some ws0 =>
      refine ⟨by simp, ?_⟩
      intro ws hws
      injection hws with h
      subst h
      dsimp only
      rw [List.filter_congr (fun r _ => hpred r)]

/-- Witness for the amended C7: a non-zero user id keeps exactly that
user's rows. -/
theorem C7_export_month_amended_witness :
    export_month
        (⟨[⟨"2025-06",
          [HEADERS,
           ["42_01.06.2025_1", "01.06.2025", "Jan", "Office", "08:00", "10:00", "", ""],
           ["7_01.06.2025_1", "01.06.2025", "Ala", "Lab", "09:00", "11:00", "", ""]]⟩]⟩ :
          Workbook)
        "2025-06" (some 42) =
      some ⟨"2025-06",
        [HEADERS,
         ["42_01.06.2025_1", "01.06.2025", "Jan", "Office", "08:00", "10:00", "", ""]]⟩ := by
  have h := (C7_export_month_amended
    (⟨[⟨"2025-06",
      [HEADERS,
       ["42_01.06.2025_1", "01.06.2025", "Jan", "Office", "08:00", "10:00", "", ""],
       ["7_01.06.2025_1", "01.06.2025", "Ala", "Lab", "09:00", "11:00", "", ""]]⟩]⟩ :
      Workbook)
    "2025-06" (some 42)).2
    ⟨"2025-06",
     [HEADERS,
      ["42_01.06.2025_1", "01.06.2025", "Jan", "Office", "08:00", "10:00", "", ""],
      ["7_01.06.2025_1", "01.06.2025", "Ala", "Lab", "09:00", "11:00", "", ""]]⟩
    (by decide)
  exact h.trans (by decide)

end Raporty
